import Mathlib

/-!
Shallow embedding of the `context-rs` crate: a typed context-propagation
mechanism for async Rust.  The crate smuggles a chain of `Provider`s down
the call stack by impersonating the scheduler waker (`ProviderWaker` in
`src/waker.rs`), and retrieval futures (`get_value`, `take_value`,
`with_ref` in `src/demand.rs`) downcast the active waker and issue a
type-directed `Demand`.

Modelling choices:
* Rust `TypeId`s are modelled as natural numbers; a type-erased payload is
  a natural number as well (the protocol only moves payloads around and
  compares type ids, so any countable carrier is faithful).  Cloning a
  payload (`Clone`/`Copy`) is the identity on the payload.
* `core::any::Demand` carries the requested form (by-ref or by-value), the
  requested type id, and a fill-once result slot; `would_be_satisfied_by_*`
  succeeds only on a form and type match while the slot is still empty,
  exactly as in `core::any`.
* `ProvideRef` / `ProvideValue` are the two provider states from
  `src/provider.rs`; `ProvideValue` holds its `Cell<Option<T>>` slot and
  its `provide` executes `Cell::take` whenever the demand would be
  satisfied, exactly as the source does.
* A waker is either a plain scheduler waker (`root`, identified by a
  number) or the presented handle of a `ProviderWaker` decorator wrapping
  a provider and an inner waker.  `from_waker_ref` succeeds exactly on the
  decorator, mirroring the vtable-identity check in `src/waker.rs`.
* One retrieval call is one poll of the corresponding future; state that
  persists between polls (the `Cell` slots inside the wrappers) is
  threaded through each call as the updated waker chain.
-/

namespace ContextRs

/-- Runtime type key standing for `core::any::TypeId`. -/
abbrev TypeId := Nat

/-- The two forms a demand can take: `request_ref` or `request_value`. -/
inductive DemandForm
  | byRef
  | byValue
deriving DecidableEq, Repr

/-- `core::any::Demand`: the requested form and type id plus the fill-once
result slot. -/
structure Demand where
  form : DemandForm
  tyId : TypeId
  slot : Option Nat
deriving DecidableEq, Repr

/-- `Demand::would_be_satisfied_by_ref_of::<T>`: the demand requests a
reference of `T` and is not yet filled. -/
def Demand.wouldBeSatisfiedByRefOf (d : Demand) (t : TypeId) : Bool :=
  d.form = DemandForm.byRef && d.tyId = t && d.slot = none

/-- `Demand::would_be_satisfied_by_value_of::<T>`: the demand requests an
owned `T` and is not yet filled. -/
def Demand.wouldBeSatisfiedByValueOf (d : Demand) (t : TypeId) : Bool :=
  d.form = DemandForm.byValue && d.tyId = t && d.slot = none

/-- `Demand::provide_ref`: fill the slot when the demand asks for a
reference of `t` and is still unfilled, else a no-op. -/
def Demand.provideRef (d : Demand) (t : TypeId) (v : Nat) : Demand :=
  if d.wouldBeSatisfiedByRefOf t then { d with slot := some v } else d

/-- `Demand::provide_value`: fill the slot when the demand asks for an
owned `t` and is still unfilled, else a no-op. -/
def Demand.provideValue (d : Demand) (t : TypeId) (v : Nat) : Demand :=
  if d.wouldBeSatisfiedByValueOf t then { d with slot := some v } else d

/-- The two provider types of `src/provider.rs`:
`ProvideRef` holding a borrow of `T`, and
`ProvideValue<T>(Cell<Option<T>>)` holding a take-once slot. -/
inductive ProviderState
  | ProvideRef (t : TypeId) (v : Nat)
  | ProvideValue (t : TypeId) (slot : Option Nat)
deriving DecidableEq, Repr

/-- The two `Provider::provide` impls of `src/provider.rs`.  `ProvideRef`
answers a matching by-ref demand and never changes; `ProvideValue` runs
`Cell::take` whenever the by-value demand would be satisfied, providing the
taken value when one was present.  Returns the updated provider state and
the updated demand. -/
def ProviderState.provide : ProviderState → Demand → ProviderState × Demand
  | .ProvideRef t v, d =>
      (.ProvideRef t v,
        if d.wouldBeSatisfiedByRefOf t then d.provideRef t v else d)
  | .ProvideValue t s, d =>
      if d.wouldBeSatisfiedByValueOf t then
        match s with
        | some x => (.ProvideValue t none, d.provideValue t x)
        | none => (.ProvideValue t none, d)
      else (.ProvideValue t s, d)

/-- The waker seen by a polled future: either a plain scheduler waker
(`root`, identified by a number), or the presented handle of a
`ProviderWaker { waker, provider }` decorator from `src/waker.rs`. -/
inductive WakerModel
  | root (id : Nat)
  | providerWaker (provider : ProviderState) (waker : WakerModel)
deriving DecidableEq, Repr

/-- `ProviderWaker::from_waker_ref`: the vtable-identity check succeeds
exactly when the waker is a decorator handle, returning its two fields. -/
def WakerModel.fromWakerRef : WakerModel → Option (ProviderState × WakerModel)
  | .root _ => none
  | .providerWaker p w => some (p, w)

/-- `impl Provider for ProviderWaker`: answer with the own provider first,
then, when the inner waker downcasts via `from_waker_ref`, delegate the
demand to the nested decorator.  A plain inner waker ends the chain.
Returns the updated waker chain and the updated demand. -/
def WakerModel.provide : WakerModel → Demand → WakerModel × Demand
  | .root i, d => (.root i, d)
  | .providerWaker p w, d =>
      let r := p.provide d
      let r2 := WakerModel.provide w r.2
      (.providerWaker r.1 r2.1, r2.2)

/-- `request_ref_from_context` (src/demand.rs): downcast the waker with
`from_waker_ref`; on success issue a fresh by-ref demand through the
provider chain, else `None`. -/
def requestRefFromContext (t : TypeId) (w : WakerModel) : Option Nat × WakerModel :=
  if (WakerModel.fromWakerRef w).isSome then
    let r := w.provide { form := DemandForm.byRef, tyId := t, slot := none }
    (r.2.slot, r.1)
  else (none, w)

/-- `request_value_from_context` (src/demand.rs): downcast the waker with
`from_waker_ref`; on success issue a fresh by-value demand through the
provider chain, else `None`. -/
def requestValueFromContext (t : TypeId) (w : WakerModel) : Option Nat × WakerModel :=
  if (WakerModel.fromWakerRef w).isSome then
    let r := w.provide { form := DemandForm.byValue, tyId := t, slot := none }
    (r.2.slot, r.1)
  else (none, w)

/-- One poll of `GetValueFut` (the future behind `get_value::<T>`):
`Poll::Ready(request_ref_from_context(cx).cloned())`.  Cloning a payload is
the identity, so the poll result is the demand result itself. -/
def getValuePoll (t : TypeId) (w : WakerModel) : Option Nat × WakerModel :=
  requestRefFromContext t w

/-- One poll of `TakeValueFut` (the future behind `take_value::<T>`):
`Poll::Ready(request_value_from_context(cx))`. -/
def takeValuePoll (t : TypeId) (w : WakerModel) : Option Nat × WakerModel :=
  requestValueFromContext t w

/-- One poll of `WithRefFut` (the future behind `with_ref`).  The future
stores `Option F`; each poll `take`s the closure and panics through
`Option::expect` when it was already consumed by an earlier poll.  A panic
is modelled as `Except.error` carrying the panic message.  On success the
poll returns the mapped result, the spent closure slot (`none`), and the
updated waker chain. -/
def withRefPoll (st : Option (Nat → Nat)) (t : TypeId) (w : WakerModel) :
    Except String (Option Nat × Option (Nat → Nat) × WakerModel) :=
  match st with
  | none => Except.error "futures should not be polled after completion"
  | some f =>
      let r := requestRefFromContext t w
      Except.ok (Option.map f r.1, none, r.2)

/-- `VTABLE::clone` (src/waker.rs): clone of the presented decorator handle
clones only the inner waker, not the provider; when the inner waker is
itself a decorator handle this recurses, so a clone is a plain clone of the
underlying scheduler waker. -/
def cloneWaker : WakerModel → WakerModel
  | .root i => .root i
  | .providerWaker _ w => cloneWaker w

/-- The identity of the underlying scheduler waker of a chain. -/
def rootId : WakerModel → Nat
  | .root i => i
  | .providerWaker _ w => rootId w

/-- Observable wake effect of `Waker::wake_by_ref`: the list of wake events
delivered to underlying scheduler wakers.  `VTABLE::wake_by_ref` forwards
to `self.waker.wake_by_ref()`; a plain scheduler waker records one wake
event on itself. -/
def wakeByRefEvents : WakerModel → List Nat
  | .root i => [i]
  | .providerWaker _ w => wakeByRefEvents w

/-- Observable wake effect of the consuming `Waker::wake`.
`VTABLE::wake` forwards to `self.waker.wake_by_ref()` (and `VTABLE::drop`
is a no-op); a plain scheduler waker records one wake event on itself. -/
def wakeEvents : WakerModel → List Nat
  | .root i => [i]
  | .providerWaker _ w => wakeByRefEvents w

/-- Build the waker chain a future nested under a stack of `ProviderFut`
wrappers is polled with: the list is nearest-first (head = innermost
wrapper), on top of the scheduler waker `i`.  Each `ProviderFut::poll`
builds one `ProviderWaker` link from the waker it was polled with and its
held provider (src/provider.rs). -/
def ofChain : List ProviderState → Nat → WakerModel
  | [], i => .root i
  | p :: ps, i => .providerWaker p (ofChain ps i)

/-- Walk a demand through a provider chain nearest-first, threading the
updated provider states; the list form of `WakerModel.provide`. -/
def provideChain : List ProviderState → Demand → List ProviderState × Demand
  | [], d => ([], d)
  | p :: ps, d =>
      let r := p.provide d
      let r2 := provideChain ps r.2
      (r.1 :: r2.1, r2.2)

/-- `n` successive polls of `take_value::<t>` futures under the same
wrapper stack (same poll of the wrappers or later polls: the `Cell` slots
persist either way), returning the list of results and the final chain. -/
def runTakes (t : TypeId) : Nat → WakerModel → List (Option Nat) × WakerModel
  | 0, w => ([], w)
  | n + 1, w =>
      let r := takeValuePoll t w
      let r2 := runTakes t n r.2
      (r.1 :: r2.1, r2.2)

/-- `n` successive polls of `get_value::<t>` futures under the same wrapper
stack. -/
def runGets (t : TypeId) : Nat → WakerModel → List (Option Nat) × WakerModel
  | 0, w => ([], w)
  | n + 1, w =>
      let r := getValuePoll t w
      let r2 := runGets t n r.2
      (r.1 :: r2.1, r2.2)

/-- A provider that currently holds a live owned value of type `t`: the
only provider shape able to fill a by-value demand for `t`. -/
def isLiveOwnedOf (t : TypeId) : ProviderState → Bool
  | .ProvideValue u (some _) => u = t
  | _ => false

/-- A provider that answers by-ref demands for type `t`. -/
def isRefOf (t : TypeId) : ProviderState → Bool
  | .ProvideRef u _ => u = t
  | _ => false

/-! Helper lemmas about single providers and provider chains. -/

/-- A filled demand is a no-op for every provider: both
`would_be_satisfied_by_*` checks fail on a non-empty slot. -/
theorem provide_filled (p : ProviderState) (d : Demand) (x : Nat)
    (h : d.slot = some x) : p.provide d = (p, d) := by
  cases p <;>
    simp [ProviderState.provide, Demand.wouldBeSatisfiedByRefOf,
      Demand.wouldBeSatisfiedByValueOf, h]

/-- A filled demand walks the rest of the chain without any effect. -/
theorem provideChain_filled (ps : List ProviderState) (d : Demand) (x : Nat)
    (h : d.slot = some x) : provideChain ps d = (ps, d) := by
  induction ps with
  | nil => rfl
  | cons p ps ih => simp [provideChain, provide_filled p d x h, ih]

/-- A provider with no live owned value of type `t` passes a fresh by-value
demand for `t` through unchanged, and its own state does not change. -/
theorem provide_skip_value (t : TypeId) (p : ProviderState)
    (h : isLiveOwnedOf t p = false) :
    p.provide { form := DemandForm.byValue, tyId := t, slot := none } =
      (p, { form := DemandForm.byValue, tyId := t, slot := none }) := by
  cases p with
  | ProvideRef u v =>
      simp [ProviderState.provide, Demand.wouldBeSatisfiedByRefOf]
  | ProvideValue u s =>
      cases s with
      | none =>
          simp only [ProviderState.provide]
          split <;> rfl
      | some x =>
          have hu : ¬ (t = u) := by
            intro h2
            simp [isLiveOwnedOf, h2.symm] at h
          simp [ProviderState.provide, Demand.wouldBeSatisfiedByValueOf, hu]

/-- A chain with no live owned provider of `t` leaves a fresh by-value
demand for `t` unfilled and is itself unchanged. -/
theorem provideChain_skip_value (t : TypeId) (ps : List ProviderState)
    (h : ∀ p ∈ ps, isLiveOwnedOf t p = false) :
    provideChain ps { form := DemandForm.byValue, tyId := t, slot := none } =
      (ps, { form := DemandForm.byValue, tyId := t, slot := none }) := by
  induction ps with
  | nil => rfl
  | cons p ps ih =>
      have hp := h p (List.mem_cons_self p ps)
      have hps := ih fun q hq => h q (List.mem_cons_of_mem p hq)
      simp [provideChain, provide_skip_value t p hp, hps]

/-- A live owned provider of `t` answers a fresh by-value demand for `t`:
the slot is taken and the demand is filled with the held value. -/
theorem provide_hit_value (t : TypeId) (v : Nat) :
    (ProviderState.ProvideValue t (some v)).provide
        { form := DemandForm.byValue, tyId := t, slot := none } =
      (ProviderState.ProvideValue t none,
        { form := DemandForm.byValue, tyId := t, slot := some v }) := by
  simp [ProviderState.provide, Demand.wouldBeSatisfiedByValueOf,
    Demand.provideValue]

/-- A provider that does not answer by-ref demands for `t` passes a fresh
by-ref demand for `t` through unchanged, and its state does not change. -/
theorem provide_skip_ref (t : TypeId) (p : ProviderState)
    (h : isRefOf t p = false) :
    p.provide { form := DemandForm.byRef, tyId := t, slot := none } =
      (p, { form := DemandForm.byRef, tyId := t, slot := none }) := by
  cases p with
  | ProvideRef u v =>
      have hu : ¬ (t = u) := by
        intro h2
        simp [isRefOf, h2.symm] at h
      simp [ProviderState.provide, Demand.wouldBeSatisfiedByRefOf, hu]
  | ProvideValue u s =>
      simp [ProviderState.provide, Demand.wouldBeSatisfiedByValueOf]

/-- A chain with no by-ref provider of `t` leaves a fresh by-ref demand
for `t` unfilled and is itself unchanged. -/
theorem provideChain_skip_ref (t : TypeId) (ps : List ProviderState)
    (h : ∀ p ∈ ps, isRefOf t p = false) :
    provideChain ps { form := DemandForm.byRef, tyId := t, slot := none } =
      (ps, { form := DemandForm.byRef, tyId := t, slot := none }) := by
  induction ps with
  | nil => rfl
  | cons p ps ih =>
      have hp := h p (List.mem_cons_self p ps)
      have hps := ih fun q hq => h q (List.mem_cons_of_mem p hq)
      simp [provideChain, provide_skip_ref t p hp, hps]

/-- A reference provider of `t` fills a fresh by-ref demand for `t` with
its borrowed value; its state is untouched. -/
theorem provide_hit_ref (t : TypeId) (v : Nat) :
    (ProviderState.ProvideRef t v).provide
        { form := DemandForm.byRef, tyId := t, slot := none } =
      (ProviderState.ProvideRef t v,
        { form := DemandForm.byRef, tyId := t, slot := some v }) := by
  simp [ProviderState.provide, Demand.wouldBeSatisfiedByRefOf,
    Demand.provideRef]

/-- Walking a demand through an appended chain composes the two walks. -/
theorem provideChain_append (ps qs : List ProviderState) (d : Demand) :
    provideChain (ps ++ qs) d =
      ((provideChain ps d).1 ++ (provideChain qs (provideChain ps d).2).1,
        (provideChain qs (provideChain ps d).2).2) := by
  induction ps generalizing d with
  | nil => simp [provideChain]
  | cons p ps ih => simp [provideChain, ih]

/-- `WakerModel.provide` on a chain built by `ofChain` is `provideChain`
on the underlying provider list. -/
theorem ofChain_provide (ps : List ProviderState) (i : Nat) (d : Demand) :
    (ofChain ps i).provide d =
      (ofChain (provideChain ps d).1 i, (provideChain ps d).2) := by
  induction ps generalizing d with
  | nil => rfl
  | cons p ps ih => simp [ofChain, WakerModel.provide, provideChain, ih]

/-- `request_value_from_context` on a built chain, in terms of
`provideChain`. -/
theorem requestValue_ofChain (t : TypeId) (ps : List ProviderState) (i : Nat) :
    requestValueFromContext t (ofChain ps i) =
      ((provideChain ps { form := DemandForm.byValue, tyId := t, slot := none }).2.slot,
        ofChain (provideChain ps
          { form := DemandForm.byValue, tyId := t, slot := none }).1 i) := by
  cases ps with
  | nil => rfl
  | cons p ps =>
      have h1 : (WakerModel.fromWakerRef (ofChain (p :: ps) i)).isSome = true := rfl
      rw [requestValueFromContext, if_pos h1, ofChain_provide]

/-- `request_ref_from_context` on a built chain, in terms of
`provideChain`. -/
theorem requestRef_ofChain (t : TypeId) (ps : List ProviderState) (i : Nat) :
    requestRefFromContext t (ofChain ps i) =
      ((provideChain ps { form := DemandForm.byRef, tyId := t, slot := none }).2.slot,
        ofChain (provideChain ps
          { form := DemandForm.byRef, tyId := t, slot := none }).1 i) := by
  cases ps with
  | nil => rfl
  | cons p ps =>
      have h1 : (WakerModel.fromWakerRef (ofChain (p :: ps) i)).isSome = true := rfl
      rw [requestRefFromContext, if_pos h1, ofChain_provide]

/-- `take_value::<t>` consumes exactly the nearest live owned provider of
`t`: the inner part `qs1` holding no live owned `t` is unchanged, the hit
slot empties, and everything outside (`qs2`) is untouched because the
filled demand no-ops. -/
theorem takeValue_nearest (t : TypeId) (v : Nat) (qs1 qs2 : List ProviderState)
    (i : Nat) (h : ∀ p ∈ qs1, isLiveOwnedOf t p = false) :
    takeValuePoll t
        (ofChain (qs1 ++ ProviderState.ProvideValue t (some v) :: qs2) i) =
      (some v, ofChain (qs1 ++ ProviderState.ProvideValue t none :: qs2) i) := by
  rw [takeValuePoll, requestValue_ofChain, provideChain_append,
    provideChain_skip_value t qs1 h]
  simp [provideChain, provide_hit_value,
    provideChain_filled qs2
      { form := DemandForm.byValue, tyId := t, slot := some v } v rfl]

/-- `take_value::<t>` under a chain with no live owned provider of `t`
returns nothing and changes nothing. -/
theorem takeValue_none (t : TypeId) (ps : List ProviderState) (i : Nat)
    (h : ∀ p ∈ ps, isLiveOwnedOf t p = false) :
    takeValuePoll t (ofChain ps i) = (none, ofChain ps i) := by
  rw [takeValuePoll, requestValue_ofChain, provideChain_skip_value t ps h]

/-- Successive `take_value::<t>` polls on a chain with no live owned
provider of `t` always return nothing. -/
theorem runTakes_none (t : TypeId) (n : Nat) (ps : List ProviderState) (i : Nat)
    (h : ∀ p ∈ ps, isLiveOwnedOf t p = false) :
    runTakes t n (ofChain ps i) = (List.replicate n none, ofChain ps i) := by
  induction n with
  | zero => rfl
  | succ n ih => simp [runTakes, takeValue_none t ps i h, ih, List.replicate]

/-- `get_value::<t>` observes the nearest by-ref provider of `t` and leaves
the whole chain unchanged. -/
theorem getValue_nearest (t : TypeId) (v : Nat) (qs1 qs2 : List ProviderState)
    (i : Nat) (h : ∀ p ∈ qs1, isRefOf t p = false) :
    getValuePoll t (ofChain (qs1 ++ ProviderState.ProvideRef t v :: qs2) i) =
      (some v, ofChain (qs1 ++ ProviderState.ProvideRef t v :: qs2) i) := by
  rw [getValuePoll, requestRef_ofChain, provideChain_append,
    provideChain_skip_ref t qs1 h]
  simp [provideChain, provide_hit_ref,
    provideChain_filled qs2
      { form := DemandForm.byRef, tyId := t, slot := some v } v rfl]

/-- `get_value::<t>` under a chain with no by-ref provider of `t` returns
nothing and changes nothing. -/
theorem getValue_none (t : TypeId) (ps : List ProviderState) (i : Nat)
    (h : ∀ p ∈ ps, isRefOf t p = false) :
    getValuePoll t (ofChain ps i) = (none, ofChain ps i) := by
  rw [getValuePoll, requestRef_ofChain, provideChain_skip_ref t ps h]

/-- Emptying the hit slot preserves the no-live-owned property of the two
side chains. -/
theorem notLive_middle (t : TypeId) (qs1 qs2 : List ProviderState)
    (h1 : ∀ p ∈ qs1, isLiveOwnedOf t p = false)
    (h2 : ∀ p ∈ qs2, isLiveOwnedOf t p = false) :
    ∀ p ∈ qs1 ++ ProviderState.ProvideValue t none :: qs2,
      isLiveOwnedOf t p = false := by
  intro p hp
  rcases List.mem_append.1 hp with hmem | hmem
  · exact h1 p hmem
  · rcases List.mem_cons.1 hmem with rfl | hmem
    · rfl
    · exact h2 p hmem

/-- Successive `get_value::<t>` polls all observe the nearest by-ref
provider of `t` and never change the chain. -/
theorem runGets_nearest (t : TypeId) (v : Nat) (n : Nat)
    (qs1 qs2 : List ProviderState) (i : Nat)
    (h : ∀ p ∈ qs1, isRefOf t p = false) :
    runGets t n (ofChain (qs1 ++ ProviderState.ProvideRef t v :: qs2) i) =
      (List.replicate n (some v),
        ofChain (qs1 ++ ProviderState.ProvideRef t v :: qs2) i) := by
  induction n with
  | zero => rfl
  | succ n ih =>
      simp [runGets, getValue_nearest t v qs1 qs2 i h, ih, List.replicate]

/-- `wake_by_ref` through any chain of decorators delivers exactly one wake
event, on the underlying scheduler waker. -/
theorem wakeByRefEvents_eq_rootId (w : WakerModel) :
    wakeByRefEvents w = [rootId w] := by
  induction w with
  | root i => rfl
  | providerWaker p w ih => simpa [wakeByRefEvents, rootId] using ih

/-- The consuming `wake` through any chain of decorators delivers exactly
one wake event, on the underlying scheduler waker. -/
theorem wakeEvents_eq_rootId (w : WakerModel) : wakeEvents w = [rootId w] := by
  cases w with
  | root i => rfl
  | providerWaker p w =>
      simpa [wakeEvents, rootId] using wakeByRefEvents_eq_rootId w

/-- Cloning any waker yields the plain clone of the underlying scheduler
waker: every decorator layer is stripped. -/
theorem cloneWaker_eq_root (w : WakerModel) :
    cloneWaker w = WakerModel.root (rootId w) := by
  induction w with
  | root i => rfl
  | providerWaker p w ih => simpa [cloneWaker, rootId] using ih

/-- `Demand::provide_ref` only ever writes the slot. -/
theorem provideRef_form (d : Demand) (t : TypeId) (v : Nat) :
    (d.provideRef t v).form = d.form := by
  unfold Demand.provideRef
  split <;> rfl

/-- `Demand::provide_value` only ever writes the slot. -/
theorem provideValue_form (d : Demand) (t : TypeId) (v : Nat) :
    (d.provideValue t v).form = d.form := by
  unfold Demand.provideValue
  split <;> rfl

/-- A provider never changes the form of the demand it answers. -/
theorem provide_form (p : ProviderState) (d : Demand) :
    ((p.provide d).2).form = d.form := by
  cases p with
  | ProvideRef t v =>
      show (if d.wouldBeSatisfiedByRefOf t then d.provideRef t v else d).form
        = d.form
      split
      · exact provideRef_form d t v
      · rfl
  | ProvideValue t s =>
      by_cases hc : d.wouldBeSatisfiedByValueOf t = true
      · cases s with
        | some x => simp [ProviderState.provide, hc, provideValue_form]
        | none => simp [ProviderState.provide, hc]
      · simp [ProviderState.provide, hc]

/-- A by-ref demand never changes any provider state. -/
theorem provide_byRef_state (p : ProviderState) (d : Demand)
    (h : d.form = DemandForm.byRef) : (p.provide d).1 = p := by
  cases p with
  | ProvideRef t v => rfl
  | ProvideValue t s =>
      have hc : d.wouldBeSatisfiedByValueOf t = false := by
        simp [Demand.wouldBeSatisfiedByValueOf, h]
      simp [ProviderState.provide, hc]

/-- A by-ref demand never changes any waker chain. -/
theorem waker_provide_byRef_state (w : WakerModel) (d : Demand)
    (h : d.form = DemandForm.byRef) : (w.provide d).1 = w := by
  induction w generalizing d with
  | root i => rfl
  | providerWaker p w ih =>
      have h1 := provide_byRef_state p d h
      have h2 : ((p.provide d).2).form = DemandForm.byRef := by
        rw [provide_form, h]
      simp [WakerModel.provide, h1, ih _ h2]

/-- `request_ref_from_context` leaves the waker chain unchanged. -/
theorem requestRef_state (t : TypeId) (w : WakerModel) :
    (requestRefFromContext t w).2 = w := by
  unfold requestRefFromContext
  split
  · exact waker_provide_byRef_state w _ rfl
  · rfl

/-! The claims. -/

/-- Claim C1: wrapping a computation with `provide_value` of `v` at type
`t` (with no other live owned injection of `t` anywhere in the wrapper
stack, inner part `qs1` or outer part `qs2`) makes exactly the first of
any number of successive `take_value::<t>` polls return `some v`; every
later poll — same outer poll or any later one, at any nesting depth —
returns `none`, and an emptied owned slot never refills on any demand. -/
theorem claim1_inject_value_taken_exactly_once (t : TypeId) (v n i : Nat)
    (qs1 qs2 : List ProviderState)
    (h1 : ∀ p ∈ qs1, isLiveOwnedOf t p = false)
    (h2 : ∀ p ∈ qs2, isLiveOwnedOf t p = false) :
    (runTakes t (n + 1)
        (ofChain (qs1 ++ ProviderState.ProvideValue t (some v) :: qs2) i)).1 =
      some v :: List.replicate n none ∧
    ∀ d : Demand, ((ProviderState.ProvideValue t none).provide d).1 =
      ProviderState.ProvideValue t none := by
  constructor
  · simp [runTakes, takeValue_nearest t v qs1 qs2 i h1,
      runTakes_none t n _ i (notLive_middle t qs1 qs2 h1 h2)]
  · intro d
    by_cases hc : d.wouldBeSatisfiedByValueOf t = true <;>
      simp [ProviderState.provide, hc]

/-- Witness for C1: under a ref of the same type, an owned slot of another
type, and an outer ref, three takes after one injection of 42 yield 42 then
nothing. -/
theorem claim1_witness :
    (runTakes 1 3
        (ofChain
          ([ProviderState.ProvideRef 1 7, ProviderState.ProvideValue 2 (some 9)]
            ++ ProviderState.ProvideValue 1 (some 42)
              :: [ProviderState.ProvideRef 1 8]) 0)).1 =
      some 42 :: List.replicate 2 none :=
  (claim1_inject_value_taken_exactly_once 1 42 2 0
    [ProviderState.ProvideRef 1 7, ProviderState.ProvideValue 2 (some 9)]
    [ProviderState.ProvideRef 1 8] (by decide) (by decide)).1

/-- Claim C2: stacked owned injections of the same type `t` peel
nearest-first: with the outer wrapper injecting `a` and the inner (nearest)
wrapper injecting `b`, three successive `take_value::<t>` polls return
`b`, then `a`, then `none`. -/
theorem claim2_take_value_peels_nearest_first (t : TypeId) (a b i : Nat) :
    (runTakes t 3
        (ofChain [ProviderState.ProvideValue t (some b),
          ProviderState.ProvideValue t (some a)] i)).1 =
      [some b, some a, none] := by
  have s1 : takeValuePoll t
      (ofChain [ProviderState.ProvideValue t (some b),
        ProviderState.ProvideValue t (some a)] i) =
      (some b, ofChain [ProviderState.ProvideValue t none,
        ProviderState.ProvideValue t (some a)] i) :=
    takeValue_nearest t b [] [ProviderState.ProvideValue t (some a)] i
      (by simp)
  have s2 : takeValuePoll t
      (ofChain [ProviderState.ProvideValue t none,
        ProviderState.ProvideValue t (some a)] i) =
      (some a, ofChain [ProviderState.ProvideValue t none,
        ProviderState.ProvideValue t none] i) :=
    takeValue_nearest t a [ProviderState.ProvideValue t none] [] i
      (by simp [isLiveOwnedOf])
  have s3 : takeValuePoll t
      (ofChain [ProviderState.ProvideValue t none,
        ProviderState.ProvideValue t none] i) =
      (none, ofChain [ProviderState.ProvideValue t none,
        ProviderState.ProvideValue t none] i) :=
    takeValue_none t _ i (by simp [isLiveOwnedOf])
  simp [runTakes, s1, s2, s3]

/-- Claim C3: a value `v` injected by reference at type `t` is returned by
`get_value::<t>` as an equal copy when no inner by-ref injection of `t`
shadows it; the read is non-consuming and every one of `n` successive
polls returns the same value again, with the chain unchanged. -/
theorem claim3_get_value_copies_and_repeats (t : TypeId) (v n i : Nat)
    (qs1 qs2 : List ProviderState)
    (h : ∀ p ∈ qs1, isRefOf t p = false) :
    getValuePoll t (ofChain (qs1 ++ ProviderState.ProvideRef t v :: qs2) i) =
      (some v, ofChain (qs1 ++ ProviderState.ProvideRef t v :: qs2) i) ∧
    runGets t n (ofChain (qs1 ++ ProviderState.ProvideRef t v :: qs2) i) =
      (List.replicate n (some v),
        ofChain (qs1 ++ ProviderState.ProvideRef t v :: qs2) i) :=
  ⟨getValue_nearest t v qs1 qs2 i h, runGets_nearest t v n qs1 qs2 i h⟩

/-- Witness for C3: type 1 injected by ref as 5 under a ref of type 2;
three gets all return 5 and leave the chain intact. -/
theorem claim3_witness :
    getValuePoll 1
        (ofChain ([ProviderState.ProvideRef 2 9]
          ++ ProviderState.ProvideRef 1 5 :: [ProviderState.ProvideRef 1 6]) 0) =
      (some 5, ofChain ([ProviderState.ProvideRef 2 9]
        ++ ProviderState.ProvideRef 1 5 :: [ProviderState.ProvideRef 1 6]) 0) ∧
    runGets 1 3
        (ofChain ([ProviderState.ProvideRef 2 9]
          ++ ProviderState.ProvideRef 1 5 :: [ProviderState.ProvideRef 1 6]) 0) =
      (List.replicate 3 (some 5),
        ofChain ([ProviderState.ProvideRef 2 9]
          ++ ProviderState.ProvideRef 1 5 :: [ProviderState.ProvideRef 1 6]) 0) :=
  claim3_get_value_copies_and_repeats 1 5 3 0 [ProviderState.ProvideRef 2 9]
    [ProviderState.ProvideRef 1 6] (by decide)

/-- Claim C4: nested by-ref injections of the same type `t` shadow
nearest-first: `get_value` and `with_ref` observe only the nearest injected
value `inner`, whatever providers (including outer by-ref injections of
`t`) sit further out in `qs2`. -/
theorem claim4_nearest_ref_shadows_outer (t : TypeId) (inner i : Nat)
    (f : Nat → Nat) (qs1 qs2 : List ProviderState)
    (h : ∀ p ∈ qs1, isRefOf t p = false) :
    getValuePoll t
        (ofChain (qs1 ++ ProviderState.ProvideRef t inner :: qs2) i) =
      (some inner,
        ofChain (qs1 ++ ProviderState.ProvideRef t inner :: qs2) i) ∧
    withRefPoll (some f) t
        (ofChain (qs1 ++ ProviderState.ProvideRef t inner :: qs2) i) =
      Except.ok (some (f inner), none,
        ofChain (qs1 ++ ProviderState.ProvideRef t inner :: qs2) i) := by
  have hr : requestRefFromContext t
      (ofChain (qs1 ++ ProviderState.ProvideRef t inner :: qs2) i) =
      (some inner,
        ofChain (qs1 ++ ProviderState.ProvideRef t inner :: qs2) i) :=
    getValue_nearest t inner qs1 qs2 i h
  exact ⟨hr, by simp [withRefPoll, hr]⟩

/-- Witness for C4: inner ref 11 of type 1 shadows the outer ref 22 of
type 1 for both `get_value` and `with_ref` (doubling the borrow). -/
theorem claim4_witness :
    getValuePoll 1
        (ofChain ([] ++ ProviderState.ProvideRef 1 11
          :: [ProviderState.ProvideRef 1 22]) 0) =
      (some 11, ofChain ([] ++ ProviderState.ProvideRef 1 11
        :: [ProviderState.ProvideRef 1 22]) 0) ∧
    withRefPoll (some (fun x => x * 2)) 1
        (ofChain ([] ++ ProviderState.ProvideRef 1 11
          :: [ProviderState.ProvideRef 1 22]) 0) =
      Except.ok (some 22, none,
        ofChain ([] ++ ProviderState.ProvideRef 1 11
          :: [ProviderState.ProvideRef 1 22]) 0) :=
  claim4_nearest_ref_shadows_outer 1 11 0 (fun x => x * 2) []
    [ProviderState.ProvideRef 1 22] (by decide)

/-- Claim C5: with no reachable decorator — a plain scheduler waker — or
with no enclosing injection answering the requested type, `take_value`,
`get_value` and `with_ref` all resolve to `none`, never to an error. -/
theorem claim5_absence_yields_none (t i : Nat) (f : Nat → Nat) :
    (takeValuePoll t (WakerModel.root i) = (none, WakerModel.root i) ∧
      getValuePoll t (WakerModel.root i) = (none, WakerModel.root i) ∧
      withRefPoll (some f) t (WakerModel.root i) =
        Except.ok (none, none, WakerModel.root i)) ∧
    ∀ qs : List ProviderState,
      (∀ p ∈ qs, isRefOf t p = false ∧ isLiveOwnedOf t p = false) →
        takeValuePoll t (ofChain qs i) = (none, ofChain qs i) ∧
        getValuePoll t (ofChain qs i) = (none, ofChain qs i) ∧
        withRefPoll (some f) t (ofChain qs i) =
          Except.ok (none, none, ofChain qs i) := by
  refine ⟨⟨rfl, rfl, rfl⟩, fun qs hq => ?_⟩
  have h1 : ∀ p ∈ qs, isRefOf t p = false := fun p hp => (hq p hp).1
  have h2 : ∀ p ∈ qs, isLiveOwnedOf t p = false := fun p hp => (hq p hp).2
  have hr : requestRefFromContext t (ofChain qs i) = (none, ofChain qs i) :=
    getValue_none t qs i h1
  exact ⟨takeValue_none t qs i h2, hr, by simp [withRefPoll, hr]⟩

/-- Witness for C5: a chain holding a ref of another type, an exhausted
owned slot of the requested type and a live owned slot of another type
still answers nothing for type 1, for all three operations. -/
theorem claim5_witness :
    takeValuePoll 1
        (ofChain [ProviderState.ProvideRef 2 9,
          ProviderState.ProvideValue 1 none,
          ProviderState.ProvideValue 3 (some 5)] 0) =
      (none, ofChain [ProviderState.ProvideRef 2 9,
        ProviderState.ProvideValue 1 none,
        ProviderState.ProvideValue 3 (some 5)] 0) ∧
    getValuePoll 1
        (ofChain [ProviderState.ProvideRef 2 9,
          ProviderState.ProvideValue 1 none,
          ProviderState.ProvideValue 3 (some 5)] 0) =
      (none, ofChain [ProviderState.ProvideRef 2 9,
        ProviderState.ProvideValue 1 none,
        ProviderState.ProvideValue 3 (some 5)] 0) ∧
    withRefPoll (some id) 1
        (ofChain [ProviderState.ProvideRef 2 9,
          ProviderState.ProvideValue 1 none,
          ProviderState.ProvideValue 3 (some 5)] 0) =
      Except.ok (none, none, ofChain [ProviderState.ProvideRef 2 9,
        ProviderState.ProvideValue 1 none,
        ProviderState.ProvideValue 3 (some 5)] 0) :=
  (claim5_absence_yields_none 1 0 id).2
    [ProviderState.ProvideRef 2 9, ProviderState.ProvideValue 1 none,
      ProviderState.ProvideValue 3 (some 5)] (by decide)

/-- Claim C6: `wake` and `wake_by_ref` on the decorator handle behave
identically to the same calls on the wrapped handle: both deliver exactly
the one wake event of the underlying scheduler waker, with nothing
duplicated or suppressed, at every nesting depth. -/
theorem claim6_wake_forwards_verbatim (p : ProviderState) (w : WakerModel) :
    wakeEvents (WakerModel.providerWaker p w) = wakeEvents w ∧
    wakeByRefEvents (WakerModel.providerWaker p w) = wakeByRefEvents w ∧
    wakeEvents (WakerModel.providerWaker p w) = [rootId w] ∧
    wakeByRefEvents (WakerModel.providerWaker p w) = [rootId w] := by
  have h1 := wakeByRefEvents_eq_rootId w
  have h2 := wakeEvents_eq_rootId w
  exact ⟨by
      rw [show wakeEvents (WakerModel.providerWaker p w) =
        wakeByRefEvents w from rfl, h1, h2],
    rfl, by simp [wakeEvents, h1], by simp [wakeByRefEvents, h1]⟩

/-- Claim C7: cloning the presented decorator handle detaches the provider:
the clone is the plain clone of the underlying scheduler handle
(recursively unwrapping nested decorators), it no longer downcasts through
`from_waker_ref`, and every retrieval polled through it returns `none`. -/
theorem claim7_clone_detaches_provider (p : ProviderState) (w : WakerModel)
    (t : Nat) (f : Nat → Nat) :
    cloneWaker (WakerModel.providerWaker p w) = WakerModel.root (rootId w) ∧
    WakerModel.fromWakerRef (cloneWaker (WakerModel.providerWaker p w)) =
      none ∧
    takeValuePoll t (cloneWaker (WakerModel.providerWaker p w)) =
      (none, WakerModel.root (rootId w)) ∧
    getValuePoll t (cloneWaker (WakerModel.providerWaker p w)) =
      (none, WakerModel.root (rootId w)) ∧
    withRefPoll (some f) t (cloneWaker (WakerModel.providerWaker p w)) =
      Except.ok (none, none, WakerModel.root (rootId w)) := by
  have hc : cloneWaker (WakerModel.providerWaker p w) =
      WakerModel.root (rootId w) := cloneWaker_eq_root w
  refine ⟨hc, ?_, ?_, ?_, ?_⟩ <;> rw [hc] <;> rfl

/-- Claim C8: a successful `take_value::<t>` consumes exactly the nearest
live owned provider of `t` and leaves every other provider state in the
chain — the inner part `qs1`, all reference providers, and any outer owned
providers of `t` in `qs2` — unchanged, because the filled demand stops
having any effect. -/
theorem claim8_take_consumes_only_nearest_slot (t : TypeId) (v i : Nat)
    (qs1 qs2 : List ProviderState)
    (h : ∀ p ∈ qs1, isLiveOwnedOf t p = false) :
    takeValuePoll t
        (ofChain (qs1 ++ ProviderState.ProvideValue t (some v) :: qs2) i) =
      (some v,
        ofChain (qs1 ++ ProviderState.ProvideValue t none :: qs2) i) :=
  takeValue_nearest t v qs1 qs2 i h

/-- Witness for C8: taking type 1 empties only the nearest slot (42); the
outer live owned slot of type 1 (99), the owned slot of type 2 and the
reference providers are untouched. -/
theorem claim8_witness :
    takeValuePoll 1
        (ofChain ([ProviderState.ProvideRef 1 7,
            ProviderState.ProvideValue 2 (some 9)]
          ++ ProviderState.ProvideValue 1 (some 42)
            :: [ProviderState.ProvideValue 1 (some 99),
              ProviderState.ProvideRef 3 4]) 0) =
      (some 42,
        ofChain ([ProviderState.ProvideRef 1 7,
            ProviderState.ProvideValue 2 (some 9)]
          ++ ProviderState.ProvideValue 1 none
            :: [ProviderState.ProvideValue 1 (some 99),
              ProviderState.ProvideRef 3 4]) 0) :=
  claim8_take_consumes_only_nearest_slot 1 42 0
    [ProviderState.ProvideRef 1 7, ProviderState.ProvideValue 2 (some 9)]
    [ProviderState.ProvideValue 1 (some 99), ProviderState.ProvideRef 3 4]
    (by decide)

/-- Claim C9: the two injection forms answer only their matching demand
form: with no by-ref injection of `t` enclosing, `get_value` and
`with_ref` return `none` and leave every provider (owned slots included)
untouched, even when a live owned injection of `t` is present; and with no
live owned injection of `t` enclosing, `take_value` returns `none`, even
when a by-ref injection of `t` is present. -/
theorem claim9_forms_never_cross :
    (∀ (t i : Nat) (qs : List ProviderState),
      (∀ p ∈ qs, isRefOf t p = false) →
        getValuePoll t (ofChain qs i) = (none, ofChain qs i)) ∧
    (∀ (t i : Nat) (f : Nat → Nat) (qs : List ProviderState),
      (∀ p ∈ qs, isRefOf t p = false) →
        withRefPoll (some f) t (ofChain qs i) =
          Except.ok (none, none, ofChain qs i)) ∧
    (∀ (t i : Nat) (qs : List ProviderState),
      (∀ p ∈ qs, isLiveOwnedOf t p = false) →
        takeValuePoll t (ofChain qs i) = (none, ofChain qs i)) := by
  refine ⟨fun t i qs h => getValue_none t qs i h, fun t i f qs h => ?_,
    fun t i qs h => takeValue_none t qs i h⟩
  have hr : requestRefFromContext t (ofChain qs i) = (none, ofChain qs i) :=
    getValue_none t qs i h
  simp [withRefPoll, hr]

/-- Witness for C9: a live owned 10 of type 1 is invisible to `get_value`
and left untouched, and a ref 5 of type 1 is invisible to `take_value`. -/
theorem claim9_witness :
    getValuePoll 1 (ofChain [ProviderState.ProvideValue 1 (some 10)] 0) =
      (none, ofChain [ProviderState.ProvideValue 1 (some 10)] 0) ∧
    takeValuePoll 1 (ofChain [ProviderState.ProvideRef 1 5] 0) =
      (none, ofChain [ProviderState.ProvideRef 1 5] 0) :=
  ⟨claim9_forms_never_cross.1 1 0
      [ProviderState.ProvideValue 1 (some 10)] (by decide),
    claim9_forms_never_cross.2.2 1 0
      [ProviderState.ProvideRef 1 5] (by decide)⟩

/-- Claim C10: re-polling a completed retrieval future is asymmetric: a
`with_ref` future whose closure slot was spent panics on the next poll
with the `expect` message, while a fresh-state `with_ref` poll always
succeeds and spends the slot; `get_value` re-polls resolve again with the
chain unchanged, and `take_value` re-polls issue a fresh demand, consuming
another injected instance when one remains. -/
theorem claim10_repoll_asymmetry :
    (∀ (t : Nat) (w : WakerModel),
      withRefPoll none t w =
        Except.error "futures should not be polled after completion") ∧
    (∀ (f : Nat → Nat) (t : Nat) (w : WakerModel),
      withRefPoll (some f) t w =
        Except.ok (Option.map f (requestRefFromContext t w).1, none,
          (requestRefFromContext t w).2)) ∧
    (∀ (t : Nat) (w : WakerModel),
      getValuePoll t ((getValuePoll t w).2) = getValuePoll t w) ∧
    (∀ (t a b i : Nat),
      (runTakes t 2 (ofChain [ProviderState.ProvideValue t (some a),
        ProviderState.ProvideValue t (some b)] i)).1 = [some a, some b]) := by
  refine ⟨fun t w => rfl, fun f t w => rfl, fun t w => ?_, fun t a b i => ?_⟩
  · rw [show (getValuePoll t w).2 = w from requestRef_state t w]
  · have s1 : takeValuePoll t
        (ofChain [ProviderState.ProvideValue t (some a),
          ProviderState.ProvideValue t (some b)] i) =
        (some a, ofChain [ProviderState.ProvideValue t none,
          ProviderState.ProvideValue t (some b)] i) :=
      takeValue_nearest t a [] [ProviderState.ProvideValue t (some b)] i
        (by simp)
    have s2 : takeValuePoll t
        (ofChain [ProviderState.ProvideValue t none,
          ProviderState.ProvideValue t (some b)] i) =
        (some b, ofChain [ProviderState.ProvideValue t none,
          ProviderState.ProvideValue t none] i) :=
      takeValue_nearest t b [ProviderState.ProvideValue t none] [] i
        (by simp [isLiveOwnedOf])
    simp [runTakes, s1, s2]

end ContextRs
